import Mathlib

/-!
# Verification of the `orb_forge` Solana program

Shallow embedding of `src/orb-agent-mono/contracts/solana-forge/src/lib.rs`
(an Anchor program) and proofs about it.

Modelling conventions:
* `Pubkey` is modelled as `Nat`.
* Anchor account validation (the generated `try_accounts`) runs before the
  instruction handler body, in field-declaration order.  In particular the
  `#[account(init, seeds = [b"claim", orb_mint.key().as_ref()], ...)]`
  constraint on `claim_record` (lib.rs lines 101-108) creates the PDA and
  fails when the account already exists; this happens *before* the handler
  body of `feed_orb` executes.  The failure is modelled as
  `Err.alreadyClaimed` (the spec's name for Anchor's account-already-in-use
  error), and the analogous failure for the `forge_state` PDA of
  `initialize` (lines 83-89) as `Err.alreadyInitialized`.
* A Solana instruction is atomic: when it fails, none of its writes persist.
  Hence the handlers return `Except Err ...` where the error constructor
  carries no state, and `applyFeedOrb` / `applyTogglePause` etc. give the
  post-state visible on chain (the input state on failure).
* `u64` counters wrap modulo `2 ^ 64` (release-profile Rust `+=`); the
  modulus is explicit where the code increments `total_claimed`.
* The SPL token `burn` CPI (lib.rs lines 34-41) debits the user token
  account and the mint supply, failing when the balance is short.  Rent
  lamports for the created `claim_record` account are not modelled (no
  claim concerns them).
* `feed_orb` additionally returns the ordered list of `Step`s it executed
  (checks performed and effects applied) and, on success, the list of
  emitted `Effect`s (the `emit!` event and the Wormhole-preparation
  message of lines 59-63).
-/

namespace OrbForge

/-- Account addresses / public keys, modelled as naturals. -/
abbrev Pubkey := Nat

/-- Wrap-around modulus of the Rust `u64` type. -/
def u64Size : Nat := 2 ^ 64

/-- `ForgeState` account (lib.rs lines 155-163). -/
structure ForgeState where
  authority : Pubkey
  wormhole_bridge : Pubkey
  rari_mint : Pubkey
  rari_threshold : Nat
  total_claimed : Nat
  paused : Bool
deriving DecidableEq, Repr

/-- `ClaimRecord` account (lib.rs lines 169-175). -/
structure ClaimRecord where
  orb_mint : Pubkey
  claimer : Pubkey
  claimed_at : Int
  target_chain : Nat
deriving DecidableEq, Repr

/-- The slice of an SPL token account that the program touches:
`owner`, `mint` (both read by the Anchor constraints on
`user_rari_account`, lib.rs lines 117-121) and the balance `amount`. -/
structure TokenAccount where
  owner : Pubkey
  mint : Pubkey
  amount : Nat
deriving DecidableEq, Repr

/-- `OrbFedEvent` (lib.rs lines 188-194). -/
structure OrbFedEvent where
  orb_mint : Pubkey
  claimer : Pubkey
  target_chain : Nat
  rari_burned : Nat
deriving DecidableEq, Repr

/-- Observable outputs of a successful `feed_orb`: the `emit!`ted event
(lib.rs lines 51-56) and the Wormhole-preparation message logged for a
non-Solana target chain (lib.rs lines 59-63). -/
inductive Effect where
  | orbFed (e : OrbFedEvent)
  | wormholePrepMsg (chainId : Nat)
deriving DecidableEq, Repr

/-- Failure modes.  `programPaused`, `invalidOrbMetadata` and
`insufficientFunds` come from the handler body (`ErrorCode` /
SPL token program); the others are produced by Anchor account validation:
`alreadyClaimed` / `alreadyInitialized` are the account-already-in-use
failure of an `init` constraint, `constraintViolation` a failed
`constraint = ...`, `unauthorized` a failed `has_one = authority`, and
`accountNotInitialized` a missing required account. -/
inductive Err where
  | accountNotInitialized
  | alreadyInitialized
  | alreadyClaimed
  | constraintViolation
  | unauthorized
  | programPaused
  | invalidOrbMetadata
  | insufficientFunds
deriving DecidableEq, Repr

/-- The individual checks and effects `feed_orb` executes, in order.
Validation steps (`loadForgeState`, `initClaimRecord`,
`checkTokenConstraints`) belong to Anchor's account validation;
the rest mirrors the handler body lines 24-65. -/
inductive Step where
  | loadForgeState
  | initClaimRecord
  | checkTokenConstraints
  | checkPaused
  | checkOrbMetadata
  | burn (amount : Nat)
  | writeClaimRecord
  | emitOrbFedEvent
  | wormholePrep (chainId : Nat)
  | bumpTotalClaimed
deriving DecidableEq, Repr

/-- The on-chain state the program touches: the `forge_state` singleton
PDA, the claim-record PDAs keyed by the orb mint (the PDA seed is
`[b"claim", orb_mint]`, so the map key is the orb mint address), token
accounts and mint supplies, plus the clock (`Clock::get()`). -/
structure Chain where
  forgeState : Option ForgeState
  claimRecords : Pubkey → Option ClaimRecord
  tokenAccounts : Pubkey → Option TokenAccount
  mintSupply : Pubkey → Nat
  now : Int

/-- Pointwise update of a key-indexed map. -/
def setAt {α : Type} (f : Pubkey → α) (k : Pubkey) (v : α) : Pubkey → α :=
  fun x => if x = k then v else f x

/-- The accounts a caller passes to `feed_orb` (struct `FeedOrb`,
lib.rs lines 96-129).  `orb_metadata_mint` is the `mint` field stored in
the passed metadata account, compared against `orb_mint` on lines 28-31. -/
structure FeedOrbAccounts where
  orb_mint : Pubkey
  orb_metadata_mint : Pubkey
  rari_mint : Pubkey
  user_rari_account : Pubkey
  user : Pubkey
deriving DecidableEq, Repr

/-- `InitializeParams` (lib.rs lines 181-186). -/
structure InitParams where
  wormhole_bridge : Pubkey
  rari_mint : Pubkey
  rari_threshold : Nat
deriving DecidableEq, Repr

/-- Result of burning `amt` from a token account (SPL token `burn`). -/
def burnTA (ta : TokenAccount) (amt : Nat) : TokenAccount :=
  { owner := ta.owner, mint := ta.mint, amount := ta.amount - amt }

/-- Trace of a fully successful `feed_orb`: validation steps, then the
handler body in source order (pause check line 24, metadata check lines
28-31, burn lines 34-41, claim-record write lines 44-48, event lines
51-56, Wormhole branch lines 59-63, counter bump line 65). -/
def successTrace (fs : ForgeState) (chainId : Nat) : List Step :=
  [Step.loadForgeState, Step.initClaimRecord, Step.checkTokenConstraints,
   Step.checkPaused, Step.checkOrbMetadata, Step.burn fs.rari_threshold,
   Step.writeClaimRecord, Step.emitOrbFedEvent]
  ++ (if chainId = 1 then [] else [Step.wormholePrep chainId])
  ++ [Step.bumpTotalClaimed]

/-- Events of a successful `feed_orb`: the `OrbFedEvent` with
`rari_burned` equal to the threshold read at call time (line 55), and,
when `chain_id != 1`, the Wormhole-preparation message (lines 59-63). -/
def successEvents (acc : FeedOrbAccounts) (fs : ForgeState) (chainId : Nat) : List Effect :=
  Effect.orbFed { orb_mint := acc.orb_mint, claimer := acc.user,
                  target_chain := chainId, rari_burned := fs.rari_threshold }
  :: (if chainId = 1 then [] else [Effect.wormholePrepMsg chainId])

/-- Post-state of a successful `feed_orb`: the claim record is created,
the threshold is debited from the user token account and the passed mint's
supply, and `total_claimed` is bumped (with `u64` wrap-around). -/
def successState (c : Chain) (acc : FeedOrbAccounts) (fs : ForgeState)
    (ta : TokenAccount) (chainId : Nat) : Chain :=
  { forgeState := some { fs with total_claimed := (fs.total_claimed + 1) % u64Size }
    claimRecords := setAt c.claimRecords acc.orb_mint
      (some { orb_mint := acc.orb_mint, claimer := acc.user,
              claimed_at := c.now, target_chain := chainId })
    tokenAccounts := setAt c.tokenAccounts acc.user_rari_account
      (some (burnTA ta fs.rari_threshold))
    mintSupply := setAt c.mintSupply acc.rari_mint
      (c.mintSupply acc.rari_mint - fs.rari_threshold)
    now := c.now }

/-- The `feed_orb` instruction (lib.rs lines 23-68 together with the
`FeedOrb` accounts struct, lines 96-129).  Returns the executed steps and
either an error (whole transaction reverted) or the new state with the
emitted effects.  Anchor account validation runs first, in field order:
load `forge_state`, `init` the `claim_record` PDA (fails with the
account-already-in-use error when a record for this orb mint exists),
load `user_rari_account` and check its `constraint`s.  Only then does the
handler body run. -/
def feedOrb (c : Chain) (acc : FeedOrbAccounts) (chainId : Nat) :
    List Step × Except Err (Chain × List Effect) :=
  match c.forgeState with
  | none => ([Step.loadForgeState], Except.error Err.accountNotInitialized)
  | some fs =>
    match c.claimRecords acc.orb_mint with
    | some _ =>
        ([Step.loadForgeState, Step.initClaimRecord], Except.error Err.alreadyClaimed)
    | none =>
      match c.tokenAccounts acc.user_rari_account with
      | none =>
          ([Step.loadForgeState, Step.initClaimRecord],
           Except.error Err.accountNotInitialized)
      | some ta =>
        if ta.owner = acc.user ∧ ta.mint = acc.rari_mint then
          if fs.paused then
            ([Step.loadForgeState, Step.initClaimRecord, Step.checkTokenConstraints,
              Step.checkPaused],
             Except.error Err.programPaused)
          else if acc.orb_metadata_mint = acc.orb_mint then
            if ta.amount < fs.rari_threshold then
              ([Step.loadForgeState, Step.initClaimRecord, Step.checkTokenConstraints,
                Step.checkPaused, Step.checkOrbMetadata],
               Except.error Err.insufficientFunds)
            else
              (successTrace fs chainId,
               Except.ok (successState c acc fs ta chainId, successEvents acc fs chainId))
          else
            ([Step.loadForgeState, Step.initClaimRecord, Step.checkTokenConstraints,
              Step.checkPaused, Step.checkOrbMetadata],
             Except.error Err.invalidOrbMetadata)
        else
          ([Step.loadForgeState, Step.initClaimRecord, Step.checkTokenConstraints],
           Except.error Err.constraintViolation)

/-- State visible on chain after a `feed_orb` transaction: the new state
on success, the unchanged input state on failure (Solana atomicity). -/
def applyFeedOrb (c : Chain) (acc : FeedOrbAccounts) (chainId : Nat) : Chain :=
  match (feedOrb c acc chainId).2 with
  | Except.ok (c', _) => c'
  | Except.error _ => c

/-- One queued `feed_orb` call. -/
structure FeedCall where
  acc : FeedOrbAccounts
  chainId : Nat

/-- Chain state after a sequence of `feed_orb` transactions. -/
def runFeedSeq (c : Chain) : List FeedCall → Chain
  | [] => c
  | call :: rest => runFeedSeq (applyFeedOrb c call.acc call.chainId) rest

/-- The `initialize` instruction (lib.rs lines 12-21 with the
`Initialize` accounts struct, lines 81-94): the `init` constraint on the
`forge_state` PDA fails when the singleton already exists; otherwise the
handler fills in the fields, with the calling signer as authority. -/
def initForge (c : Chain) (authority : Pubkey) (params : InitParams) :
    Except Err Chain :=
  match c.forgeState with
  | some _ => Except.error Err.alreadyInitialized
  | none =>
      Except.ok { c with
        forgeState := some { authority := authority,
                             wormhole_bridge := params.wormhole_bridge,
                             rari_mint := params.rari_mint,
                             rari_threshold := params.rari_threshold,
                             total_claimed := 0,
                             paused := false } }

/-- Visible post-state of an `initialize` transaction. -/
def applyInitForge (c : Chain) (authority : Pubkey) (params : InitParams) : Chain :=
  match initForge c authority params with
  | Except.ok c' => c'
  | Except.error _ => c

/-- The `toggle_pause` instruction (lib.rs lines 70-73 with `TogglePause`,
lines 131-141): the `has_one = authority` constraint requires the signing
caller to equal `forge_state.authority`; the handler flips `paused`. -/
def togglePause (c : Chain) (caller : Pubkey) : Except Err Chain :=
  match c.forgeState with
  | none => Except.error Err.accountNotInitialized
  | some fs =>
      if caller = fs.authority then
        Except.ok { c with forgeState := some { fs with paused := !fs.paused } }
      else Except.error Err.unauthorized

/-- Visible post-state of a `toggle_pause` transaction. -/
def applyTogglePause (c : Chain) (caller : Pubkey) : Chain :=
  match togglePause c caller with
  | Except.ok c' => c'
  | Except.error _ => c

/-- The `update_threshold` instruction (lib.rs lines 75-78 with
`UpdateThreshold`, lines 143-153). -/
def updateThreshold (c : Chain) (caller : Pubkey) (newThreshold : Nat) :
    Except Err Chain :=
  match c.forgeState with
  | none => Except.error Err.accountNotInitialized
  | some fs =>
      if caller = fs.authority then
        Except.ok { c with forgeState := some { fs with rari_threshold := newThreshold } }
      else Except.error Err.unauthorized

/-- Visible post-state of an `update_threshold` transaction. -/
def applyUpdateThreshold (c : Chain) (caller : Pubkey) (newThreshold : Nat) : Chain :=
  match updateThreshold c caller newThreshold with
  | Except.ok c' => c'
  | Except.error _ => c

/-- The claimer holds the Orb: some token account of the orb mint is
owned by them with a positive balance.  `feed_orb` never reads this. -/
def HoldsOrb (c : Chain) (user orbMint : Pubkey) : Prop :=
  ∃ k ta, c.tokenAccounts k = some ta ∧ ta.mint = orbMint ∧
    ta.owner = user ∧ 0 < ta.amount

/-- The claim events among a list of effects. -/
def orbFedEvents (evs : List Effect) : List Effect :=
  evs.filter fun e => match e with
    | Effect.orbFed _ => true
    | _ => false

/-- Events of a successful call, extracted (empty on failure). -/
def evsOf (r : List Step × Except Err (Chain × List Effect)) : List Effect :=
  match r.2 with
  | Except.ok (_, evs) => evs
  | Except.error _ => []

/-! ## Branch-evaluation lemmas for `feedOrb` -/

theorem feedOrb_forge_none (c : Chain) (acc : FeedOrbAccounts) (chainId : Nat)
    (hfs : c.forgeState = none) :
    feedOrb c acc chainId =
      ([Step.loadForgeState], Except.error Err.accountNotInitialized) := by
  simp [feedOrb, hfs]

theorem feedOrb_recorded (c : Chain) (acc : FeedOrbAccounts) (chainId : Nat)
    (fs : ForgeState) (r : ClaimRecord)
    (hfs : c.forgeState = some fs) (hr : c.claimRecords acc.orb_mint = some r) :
    feedOrb c acc chainId =
      ([Step.loadForgeState, Step.initClaimRecord], Except.error Err.alreadyClaimed) := by
  simp [feedOrb, hfs, hr]

theorem feedOrb_no_token_account (c : Chain) (acc : FeedOrbAccounts) (chainId : Nat)
    (fs : ForgeState)
    (hfs : c.forgeState = some fs) (hr : c.claimRecords acc.orb_mint = none)
    (hta : c.tokenAccounts acc.user_rari_account = none) :
    feedOrb c acc chainId =
      ([Step.loadForgeState, Step.initClaimRecord],
       Except.error Err.accountNotInitialized) := by
  simp [feedOrb, hfs, hr, hta]

theorem feedOrb_constraint_fail (c : Chain) (acc : FeedOrbAccounts) (chainId : Nat)
    (fs : ForgeState) (ta : TokenAccount)
    (hfs : c.forgeState = some fs) (hr : c.claimRecords acc.orb_mint = none)
    (hta : c.tokenAccounts acc.user_rari_account = some ta)
    (hco : ¬ (ta.owner = acc.user ∧ ta.mint = acc.rari_mint)) :
    feedOrb c acc chainId =
      ([Step.loadForgeState, Step.initClaimRecord, Step.checkTokenConstraints],
       Except.error Err.constraintViolation) := by
  simp [feedOrb, hfs, hr, hta, hco]

theorem feedOrb_paused (c : Chain) (acc : FeedOrbAccounts) (chainId : Nat)
    (fs : ForgeState) (ta : TokenAccount)
    (hfs : c.forgeState = some fs) (hr : c.claimRecords acc.orb_mint = none)
    (hta : c.tokenAccounts acc.user_rari_account = some ta)
    (ho : ta.owner = acc.user) (hm : ta.mint = acc.rari_mint)
    (hp : fs.paused = true) :
    feedOrb c acc chainId =
      ([Step.loadForgeState, Step.initClaimRecord, Step.checkTokenConstraints,
        Step.checkPaused],
       Except.error Err.programPaused) := by
  simp [feedOrb, hfs, hr, hta, ho, hm, hp]

theorem feedOrb_bad_metadata (c : Chain) (acc : FeedOrbAccounts) (chainId : Nat)
    (fs : ForgeState) (ta : TokenAccount)
    (hfs : c.forgeState = some fs) (hr : c.claimRecords acc.orb_mint = none)
    (hta : c.tokenAccounts acc.user_rari_account = some ta)
    (ho : ta.owner = acc.user) (hm : ta.mint = acc.rari_mint)
    (hp : fs.paused = false) (hmeta : ¬ acc.orb_metadata_mint = acc.orb_mint) :
    feedOrb c acc chainId =
      ([Step.loadForgeState, Step.initClaimRecord, Step.checkTokenConstraints,
        Step.checkPaused, Step.checkOrbMetadata],
       Except.error Err.invalidOrbMetadata) := by
  simp [feedOrb, hfs, hr, hta, ho, hm, hp, hmeta]

theorem feedOrb_insufficient (c : Chain) (acc : FeedOrbAccounts) (chainId : Nat)
    (fs : ForgeState) (ta : TokenAccount)
    (hfs : c.forgeState = some fs) (hr : c.claimRecords acc.orb_mint = none)
    (hta : c.tokenAccounts acc.user_rari_account = some ta)
    (ho : ta.owner = acc.user) (hm : ta.mint = acc.rari_mint)
    (hp : fs.paused = false) (hmeta : acc.orb_metadata_mint = acc.orb_mint)
    (hamt : ta.amount < fs.rari_threshold) :
    feedOrb c acc chainId =
      ([Step.loadForgeState, Step.initClaimRecord, Step.checkTokenConstraints,
        Step.checkPaused, Step.checkOrbMetadata],
       Except.error Err.insufficientFunds) := by
  simp [feedOrb, hfs, hr, hta, ho, hm, hp, hmeta, hamt]

theorem feedOrb_success (c : Chain) (acc : FeedOrbAccounts) (chainId : Nat)
    (fs : ForgeState) (ta : TokenAccount)
    (hfs : c.forgeState = some fs) (hr : c.claimRecords acc.orb_mint = none)
    (hta : c.tokenAccounts acc.user_rari_account = some ta)
    (ho : ta.owner = acc.user) (hm : ta.mint = acc.rari_mint)
    (hp : fs.paused = false) (hmeta : acc.orb_metadata_mint = acc.orb_mint)
    (hamt : fs.rari_threshold ≤ ta.amount) :
    feedOrb c acc chainId =
      (successTrace fs chainId,
       Except.ok (successState c acc fs ta chainId, successEvents acc fs chainId)) := by
  have hlt : ¬ ta.amount < fs.rari_threshold := Nat.not_lt.mpr hamt
  simp [feedOrb, hfs, hr, hta, ho, hm, hp, hmeta, hlt]

/-- A failing `feedOrb` leaves the visible chain state unchanged
(Solana transaction atomicity). -/
theorem applyFeedOrb_error (c : Chain) (acc : FeedOrbAccounts) (chainId : Nat)
    (e : Err) (h : (feedOrb c acc chainId).2 = Except.error e) :
    applyFeedOrb c acc chainId = c := by
  unfold applyFeedOrb
  rw [h]

/-- Inversion: a successful `feedOrb` pins down all the checks it passed
and the exact trace, post-state and events. -/
theorem feedOrb_ok_elim (c : Chain) (acc : FeedOrbAccounts) (chainId : Nat)
    (tr : List Step) (c' : Chain) (evs : List Effect)
    (h : feedOrb c acc chainId = (tr, Except.ok (c', evs))) :
    ∃ fs ta, c.forgeState = some fs ∧ c.claimRecords acc.orb_mint = none ∧
      c.tokenAccounts acc.user_rari_account = some ta ∧
      ta.owner = acc.user ∧ ta.mint = acc.rari_mint ∧
      fs.paused = false ∧ acc.orb_metadata_mint = acc.orb_mint ∧
      fs.rari_threshold ≤ ta.amount ∧
      tr = successTrace fs chainId ∧
      c' = successState c acc fs ta chainId ∧
      evs = successEvents acc fs chainId := by
  cases hfs : c.forgeState with
  | none =>
    rw [feedOrb_forge_none c acc chainId hfs] at h
    exact absurd h (by simp)
  | some fs =>
    cases hr : c.claimRecords acc.orb_mint with
    | some r =>
      rw [feedOrb_recorded c acc chainId fs r hfs hr] at h
      exact absurd h (by simp)
    | none =>
      cases hta : c.tokenAccounts acc.user_rari_account with
      | none =>
        rw [feedOrb_no_token_account c acc chainId fs hfs hr hta] at h
        exact absurd h (by simp)
      | some ta =>
        by_cases hco : ta.owner = acc.user ∧ ta.mint = acc.rari_mint
        · cases hp : fs.paused with
          | true =>
            rw [feedOrb_paused c acc chainId fs ta hfs hr hta hco.1 hco.2 hp] at h
            exact absurd h (by simp)
          | false =>
            by_cases hmeta : acc.orb_metadata_mint = acc.orb_mint
            · by_cases hamt : ta.amount < fs.rari_threshold
              · rw [feedOrb_insufficient c acc chainId fs ta hfs hr hta hco.1 hco.2
                      hp hmeta hamt] at h
                exact absurd h (by simp)
              · have hle : fs.rari_threshold ≤ ta.amount := Nat.not_lt.mp hamt
                rw [feedOrb_success c acc chainId fs ta hfs hr hta hco.1 hco.2
                      hp hmeta hle] at h
                obtain ⟨h1, h2⟩ := Prod.mk.injEq _ _ _ _ ▸ h
                obtain ⟨h3, h4⟩ : successState c acc fs ta chainId = c' ∧
                    successEvents acc fs chainId = evs := by
                  injection h2 with h2'
                  exact ⟨congrArg Prod.fst h2', congrArg Prod.snd h2'⟩
                exact ⟨fs, ta, rfl, rfl, rfl, hco.1, hco.2, hp, hmeta, hle,
                       h1.symm, h3.symm, h4.symm⟩
            · rw [feedOrb_bad_metadata c acc chainId fs ta hfs hr hta hco.1 hco.2
                    hp hmeta] at h
              exact absurd h (by simp)
        · rw [feedOrb_constraint_fail c acc chainId fs ta hfs hr hta hco] at h
          exact absurd h (by simp)

/-- Any failing `feedOrb` executed no burn step. -/
theorem feedOrb_error_no_burn (c : Chain) (acc : FeedOrbAccounts) (chainId : Nat)
    (e : Err) (h : (feedOrb c acc chainId).2 = Except.error e) :
    ∀ amt, Step.burn amt ∉ (feedOrb c acc chainId).1 := by
  intro amt
  cases hfs : c.forgeState with
  | none => rw [feedOrb_forge_none c acc chainId hfs]; simp
  | some fs =>
    cases hr : c.claimRecords acc.orb_mint with
    | some r => rw [feedOrb_recorded c acc chainId fs r hfs hr]; simp
    | none =>
      cases hta : c.tokenAccounts acc.user_rari_account with
      | none => rw [feedOrb_no_token_account c acc chainId fs hfs hr hta]; simp
      | some ta =>
        by_cases hco : ta.owner = acc.user ∧ ta.mint = acc.rari_mint
        · cases hp : fs.paused with
          | true =>
            rw [feedOrb_paused c acc chainId fs ta hfs hr hta hco.1 hco.2 hp]; simp
          | false =>
            by_cases hmeta : acc.orb_metadata_mint = acc.orb_mint
            · by_cases hamt : ta.amount < fs.rari_threshold
              · rw [feedOrb_insufficient c acc chainId fs ta hfs hr hta hco.1 hco.2
                      hp hmeta hamt]
                simp
              · have hle : fs.rari_threshold ≤ ta.amount := Nat.not_lt.mp hamt
                rw [feedOrb_success c acc chainId fs ta hfs hr hta hco.1 hco.2
                      hp hmeta hle] at h
                exact absurd h (by simp)
            · rw [feedOrb_bad_metadata c acc chainId fs ta hfs hr hta hco.1 hco.2
                    hp hmeta]
              simp
        · rw [feedOrb_constraint_fail c acc chainId fs ta hfs hr hta hco]; simp

/-- Inversion: `feedOrb` fails with `alreadyClaimed` exactly when the
forge state exists and a claim record for this orb mint already exists;
the trace is then the two validation steps only. -/
theorem feedOrb_alreadyClaimed_elim (c : Chain) (acc : FeedOrbAccounts) (chainId : Nat)
    (h : (feedOrb c acc chainId).2 = Except.error Err.alreadyClaimed) :
    (∃ fs, c.forgeState = some fs) ∧ (∃ r, c.claimRecords acc.orb_mint = some r) ∧
      (feedOrb c acc chainId).1 = [Step.loadForgeState, Step.initClaimRecord] := by
  cases hfs : c.forgeState with
  | none =>
    rw [feedOrb_forge_none c acc chainId hfs] at h
    exact absurd h (by simp)
  | some fs =>
    cases hr : c.claimRecords acc.orb_mint with
    | some r =>
      rw [feedOrb_recorded c acc chainId fs r hfs hr]
      exact ⟨⟨fs, rfl⟩, ⟨r, rfl⟩, rfl⟩
    | none =>
      cases hta : c.tokenAccounts acc.user_rari_account with
      | none =>
        rw [feedOrb_no_token_account c acc chainId fs hfs hr hta] at h
        exact absurd h (by simp)
      | some ta =>
        by_cases hco : ta.owner = acc.user ∧ ta.mint = acc.rari_mint
        · cases hp : fs.paused with
          | true =>
            rw [feedOrb_paused c acc chainId fs ta hfs hr hta hco.1 hco.2 hp] at h
            exact absurd h (by simp)
          | false =>
            by_cases hmeta : acc.orb_metadata_mint = acc.orb_mint
            · by_cases hamt : ta.amount < fs.rari_threshold
              · rw [feedOrb_insufficient c acc chainId fs ta hfs hr hta hco.1 hco.2
                      hp hmeta hamt] at h
                exact absurd h (by simp)
              · have hle : fs.rari_threshold ≤ ta.amount := Nat.not_lt.mp hamt
                rw [feedOrb_success c acc chainId fs ta hfs hr hta hco.1 hco.2
                      hp hmeta hle] at h
                exact absurd h (by simp)
            · rw [feedOrb_bad_metadata c acc chainId fs ta hfs hr hta hco.1 hco.2
                    hp hmeta] at h
              exact absurd h (by simp)
        · rw [feedOrb_constraint_fail c acc chainId fs ta hfs hr hta hco] at h
          exact absurd h (by simp)

/-! ## Concrete fixtures used by witnesses and counterexamples -/

/-- A live forge state: authority `1`, bridge `2`, RARI mint `3`,
threshold `10`, nothing claimed, not paused. -/
def fsLive : ForgeState :=
  { authority := 1, wormhole_bridge := 2, rari_mint := 3,
    rari_threshold := 10, total_claimed := 0, paused := false }

/-- `fsLive` with the pause flag set. -/
def fsPaused : ForgeState := { fsLive with paused := true }

/-- User `6`'s RARI token account: mint `3`, balance `100`. -/
def taUser : TokenAccount := { owner := 6, mint := 3, amount := 100 }

/-- An existing claim record for orb mint `7`. -/
def crEx : ClaimRecord :=
  { orb_mint := 7, claimer := 6, claimed_at := 77, target_chain := 1 }

/-- A chain where the forge is initialized and user `6` has a funded RARI
account at address `5`; no claims yet. -/
def cLive : Chain :=
  { forgeState := some fsLive
    claimRecords := fun _ => none
    tokenAccounts := fun k => if k = 5 then some taUser else none
    mintSupply := fun m => if m = 3 then 1000 else 0
    now := 77 }

/-- `cLive` with orb mint `7` already claimed. -/
def cClaimed : Chain :=
  { cLive with claimRecords := fun a => if a = 7 then some crEx else none }

/-- `cLive` with the program paused. -/
def cPaused : Chain := { cLive with forgeState := some fsPaused }

/-- Paused and orb mint `7` already claimed. -/
def cPausedClaimed : Chain := { cClaimed with forgeState := some fsPaused }

/-- User `6` feeding orb mint `7` with matching metadata, paying from
token account `5` of mint `3`. -/
def accUser : FeedOrbAccounts :=
  { orb_mint := 7, orb_metadata_mint := 7, rari_mint := 3,
    user_rari_account := 5, user := 6 }

/-- A different claimer (`9`) attempting the same orb mint `7`. -/
def accUser2 : FeedOrbAccounts := { accUser with user := 9 }

/-- `accUser` with a metadata account bound to a different mint (`8`). -/
def accBadMeta : FeedOrbAccounts := { accUser with orb_metadata_mint := 8 }

example : (feedOrb cLive accUser 1).2 =
    Except.ok (successState cLive accUser fsLive taUser 1, successEvents accUser fsLive 1) := rfl

example : (feedOrb cClaimed accUser 1).2 = Except.error Err.alreadyClaimed := rfl

example : (feedOrb cPaused accUser 1).2 = Except.error Err.programPaused := rfl

example : (feedOrb cPausedClaimed accUser 1).2 = Except.error Err.alreadyClaimed := rfl

example : (feedOrb cPaused accBadMeta 1).2 = Except.error Err.programPaused := rfl

example : (applyFeedOrb cLive accUser 1).forgeState =
    some { fsLive with total_claimed := 1 } := rfl

/-! ## Further shared lemmas -/

/-- A `feed_orb` transaction never erases or overwrites an existing claim
record: the `init` constraint only ever creates a record where none was. -/
theorem applyFeedOrb_preserves_record (c : Chain) (acc : FeedOrbAccounts)
    (chainId : Nat) (a : Pubkey) (r : ClaimRecord)
    (h : c.claimRecords a = some r) :
    (applyFeedOrb c acc chainId).claimRecords a = some r := by
  cases hres : (feedOrb c acc chainId).2 with
  | error e =>
    rw [applyFeedOrb_error c acc chainId e hres]
    exact h
  | ok p =>
    obtain ⟨c', evs⟩ := p
    have h' : feedOrb c acc chainId =
        ((feedOrb c acc chainId).1, Except.ok (c', evs)) := by
      rw [← hres]
    obtain ⟨fs, ta, hfs, hr, hta, _, _, _, _, _, _, hc', _⟩ :=
      feedOrb_ok_elim c acc chainId (feedOrb c acc chainId).1 c' evs h'
    have happ : applyFeedOrb c acc chainId = c' := by
      unfold applyFeedOrb
      rw [hres]
    rw [happ, hc']
    show setAt c.claimRecords acc.orb_mint _ a = some r
    unfold setAt
    by_cases hak : a = acc.orb_mint
    · rw [hak] at h
      exact Option.noConfusion (h.symm.trans hr)
    · simpa [hak] using h

/-- Existing claim records survive any sequence of `feed_orb` calls. -/
theorem runFeedSeq_preserves_record (c : Chain) (calls : List FeedCall)
    (a : Pubkey) (r : ClaimRecord) (h : c.claimRecords a = some r) :
    (runFeedSeq c calls).claimRecords a = some r := by
  induction calls generalizing c with
  | nil => exact h
  | cons call rest ih =>
    exact ih (applyFeedOrb c call.acc call.chainId)
      (applyFeedOrb_preserves_record c call.acc call.chainId a r h)

/-! ## Claims -/

/-- Claim C1: at most one claim record per orb mint ever exists across any
sequence of `feed_orb` calls — an existing record is never replaced, and
after a successful claim any further `feed_orb` for the same orb mint (by
any claimer) fails with the already-claimed error and leaves the chain
state unchanged. -/
theorem claim1_exactly_once_per_asset :
    (∀ c calls a r, c.claimRecords a = some r →
        (runFeedSeq c calls).claimRecords a = some r) ∧
    (∀ c acc chainId tr c₁ evs,
        feedOrb c acc chainId = (tr, Except.ok (c₁, evs)) →
        ∀ acc' chainId', acc'.orb_mint = acc.orb_mint →
          (feedOrb c₁ acc' chainId').2 = Except.error Err.alreadyClaimed ∧
          applyFeedOrb c₁ acc' chainId' = c₁) := by
  constructor
  · intro c calls a r h
    exact runFeedSeq_preserves_record c calls a r h
  · intro c acc chainId tr c₁ evs h acc' chainId' horb
    obtain ⟨fs, ta, hfs, hr, hta, _, _, _, _, _, _, hc₁, _⟩ :=
      feedOrb_ok_elim c acc chainId tr c₁ evs h
    have hfs₁ : c₁.forgeState =
        some { fs with total_claimed := (fs.total_claimed + 1) % u64Size } := by
      rw [hc₁]
      rfl
    have hr₁ : c₁.claimRecords acc'.orb_mint =
        some { orb_mint := acc.orb_mint, claimer := acc.user,
               claimed_at := c.now, target_chain := chainId } := by
      rw [hc₁, horb]
      show setAt c.claimRecords acc.orb_mint _ acc.orb_mint = _
      unfold setAt
      simp
    have hrec := feedOrb_recorded c₁ acc' chainId' _ _ hfs₁ hr₁
    constructor
    · rw [hrec]
    · exact applyFeedOrb_error c₁ acc' chainId' Err.alreadyClaimed (by rw [hrec])

theorem claim1_exactly_once_per_asset_witness :
    (runFeedSeq cClaimed [{ acc := accUser, chainId := 1 }]).claimRecords 7 =
      some crEx ∧
    (feedOrb (applyFeedOrb cLive accUser 1) accUser2 5).2 =
      Except.error Err.alreadyClaimed := by
  constructor
  · exact claim1_exactly_once_per_asset.1 cClaimed
      [{ acc := accUser, chainId := 1 }] 7 crEx rfl
  · exact (claim1_exactly_once_per_asset.2 cLive accUser 1
      (feedOrb cLive accUser 1).1 (applyFeedOrb cLive accUser 1)
      (evsOf (feedOrb cLive accUser 1)) rfl accUser2 5 rfl).1

/-- Claim C2, counterexample: with the pause flag set *and* the orb
already claimed, `feed_orb` fails with the already-claimed error of the
Anchor `init` account validation — which runs before the handler body —
and not with `ProgramPaused`. -/
theorem claim2_paused_programPaused_cex :
    cPausedClaimed.forgeState = some fsPaused ∧ fsPaused.paused = true ∧
    (feedOrb cPausedClaimed accUser 1).2 = Except.error Err.alreadyClaimed ∧
    Err.alreadyClaimed ≠ Err.programPaused :=
  ⟨rfl, rfl, rfl, by decide⟩

/-- Claim C2 as amended: when the pause flag is set, every `feed_orb`
call fails and causes zero state mutation (no burn step executes, the
visible chain state is unchanged); the error is `ProgramPaused` provided
Anchor account validation passes (no existing claim record for the asset
and the user token account exists and satisfies its constraints). -/
theorem claim2_paused_rejects (c : Chain) (acc : FeedOrbAccounts) (chainId : Nat)
    (fs : ForgeState) (hfs : c.forgeState = some fs) (hp : fs.paused = true) :
    (∃ e, (feedOrb c acc chainId).2 = Except.error e) ∧
    applyFeedOrb c acc chainId = c ∧
    (∀ amt, Step.burn amt ∉ (feedOrb c acc chainId).1) ∧
    (c.claimRecords acc.orb_mint = none →
      ∀ ta, c.tokenAccounts acc.user_rari_account = some ta →
        ta.owner = acc.user → ta.mint = acc.rari_mint →
        (feedOrb c acc chainId).2 = Except.error Err.programPaused) := by
  have herr : ∃ e, (feedOrb c acc chainId).2 = Except.error e := by
    cases hr : c.claimRecords acc.orb_mint with
    | some r =>
      exact ⟨Err.alreadyClaimed, by rw [feedOrb_recorded c acc chainId fs r hfs hr]⟩
    | none =>
      cases hta : c.tokenAccounts acc.user_rari_account with
      | none =>
        exact ⟨Err.accountNotInitialized,
          by rw [feedOrb_no_token_account c acc chainId fs hfs hr hta]⟩
      | some ta =>
        by_cases hco : ta.owner = acc.user ∧ ta.mint = acc.rari_mint
        · exact ⟨Err.programPaused,
            by rw [feedOrb_paused c acc chainId fs ta hfs hr hta hco.1 hco.2 hp]⟩
        · exact ⟨Err.constraintViolation,
            by rw [feedOrb_constraint_fail c acc chainId fs ta hfs hr hta hco]⟩
  obtain ⟨e, he⟩ := herr
  refine ⟨⟨e, he⟩, applyFeedOrb_error c acc chainId e he,
    feedOrb_error_no_burn c acc chainId e he, ?_⟩
  intro hrec ta hta ho hm
  rw [feedOrb_paused c acc chainId fs ta hfs hrec hta ho hm hp]

theorem claim2_paused_rejects_witness :
    applyFeedOrb cPaused accUser 1 = cPaused ∧
    (feedOrb cPaused accUser 1).2 = Except.error Err.programPaused := by
  have h := claim2_paused_rejects cPaused accUser 1 fsPaused rfl rfl
  exact ⟨h.2.1, h.2.2.2 rfl taUser rfl rfl rfl⟩

/-- Claim C3: a successful `feed_orb` bumps `total_claimed` by exactly one
(below the `u64` wrap bound), debits exactly the threshold read at call
time from the claimer's token account (which therefore held at least the
threshold), and emits exactly one claim event, whose `rari_burned` equals
that same threshold. -/
theorem claim3_success_effects (c : Chain) (acc : FeedOrbAccounts) (chainId : Nat)
    (fs : ForgeState) (ta : TokenAccount) (tr : List Step) (c' : Chain)
    (evs : List Effect)
    (hfs : c.forgeState = some fs)
    (hta : c.tokenAccounts acc.user_rari_account = some ta)
    (hlt : fs.total_claimed + 1 < u64Size)
    (h : feedOrb c acc chainId = (tr, Except.ok (c', evs))) :
    c'.forgeState = some { fs with total_claimed := fs.total_claimed + 1 } ∧
    fs.rari_threshold ≤ ta.amount ∧
    c'.tokenAccounts acc.user_rari_account = some (burnTA ta fs.rari_threshold) ∧
    orbFedEvents evs =
      [Effect.orbFed { orb_mint := acc.orb_mint, claimer := acc.user,
                       target_chain := chainId, rari_burned := fs.rari_threshold }] := by
  obtain ⟨fs₀, ta₀, hfs₀, hr₀, hta₀, ho₀, hm₀, hp₀, hmeta₀, hle₀, htr, hc', hevs⟩ :=
    feedOrb_ok_elim c acc chainId tr c' evs h
  have hfseq : fs = fs₀ := by
    rw [hfs] at hfs₀
    exact Option.some.inj hfs₀
  have htaeq : ta = ta₀ := by
    rw [hta] at hta₀
    exact Option.some.inj hta₀
  subst hfseq
  subst htaeq
  refine ⟨?_, hle₀, ?_, ?_⟩
  · rw [hc']
    simp [successState, Nat.mod_eq_of_lt hlt]
  · rw [hc']
    simp [successState, setAt]
  · rw [hevs]
    unfold successEvents orbFedEvents
    by_cases h1 : chainId = 1 <;> simp [h1]

theorem claim3_success_effects_witness :
    (applyFeedOrb cLive accUser 5).forgeState =
      some { fsLive with total_claimed := fsLive.total_claimed + 1 } ∧
    fsLive.rari_threshold ≤ taUser.amount ∧
    (applyFeedOrb cLive accUser 5).tokenAccounts accUser.user_rari_account =
      some (burnTA taUser fsLive.rari_threshold) ∧
    orbFedEvents (evsOf (feedOrb cLive accUser 5)) =
      [Effect.orbFed { orb_mint := accUser.orb_mint, claimer := accUser.user,
                       target_chain := 5, rari_burned := fsLive.rari_threshold }] :=
  claim3_success_effects cLive accUser 5 fsLive taUser
    (feedOrb cLive accUser 5).1 (applyFeedOrb cLive accUser 5)
    (evsOf (feedOrb cLive accUser 5)) rfl rfl (by decide) rfl

/-- Claim C4: `toggle_pause` and `update_threshold` called by anyone other
than the stored authority fail with the unauthorized (`has_one`) error and
leave the whole chain state unchanged; called by the authority,
`toggle_pause` flips `paused` and `update_threshold` stores the supplied
value. -/
theorem claim4_admin_auth_gate (c : Chain) (fs : ForgeState) (caller : Pubkey)
    (v : Nat) (hfs : c.forgeState = some fs) :
    (caller ≠ fs.authority →
      togglePause c caller = Except.error Err.unauthorized ∧
      applyTogglePause c caller = c ∧
      updateThreshold c caller v = Except.error Err.unauthorized ∧
      applyUpdateThreshold c caller v = c) ∧
    (caller = fs.authority →
      togglePause c caller =
        Except.ok { c with forgeState := some { fs with paused := !fs.paused } } ∧
      updateThreshold c caller v =
        Except.ok { c with forgeState := some { fs with rari_threshold := v } }) := by
  constructor
  · intro hne
    have ht : togglePause c caller = Except.error Err.unauthorized := by
      simp [togglePause, hfs, hne]
    have hu : updateThreshold c caller v = Except.error Err.unauthorized := by
      simp [updateThreshold, hfs, hne]
    refine ⟨ht, ?_, hu, ?_⟩
    · unfold applyTogglePause
      rw [ht]
    · unfold applyUpdateThreshold
      rw [hu]
  · intro heq
    constructor
    · simp [togglePause, hfs, heq]
    · simp [updateThreshold, hfs, heq]

theorem claim4_admin_auth_gate_witness :
    (togglePause cLive 4 = Except.error Err.unauthorized ∧
     applyTogglePause cLive 4 = cLive ∧
     updateThreshold cLive 4 50 = Except.error Err.unauthorized ∧
     applyUpdateThreshold cLive 4 50 = cLive) ∧
    (togglePause cLive 1 =
       Except.ok { cLive with forgeState := some { fsLive with paused := !fsLive.paused } } ∧
     updateThreshold cLive 1 50 =
       Except.ok { cLive with forgeState := some { fsLive with rari_threshold := 50 } }) := by
  have h := claim4_admin_auth_gate cLive fsLive 4 50 rfl
  have h2 := claim4_admin_auth_gate cLive fsLive 1 50 rfl
  exact ⟨h.1 (by decide), h2.2 rfl⟩

/-- Claim C5, counterexample: a `feed_orb` attempt on an already-claimed
orb fails with the already-claimed error having executed only the two
account-validation steps — no burn step ran — and the claimer's token
account balance is untouched, contradicting the claimed
debit-before-uniqueness-check ordering. -/
theorem claim5_burn_before_check_cex :
    (feedOrb cClaimed accUser 1).2 = Except.error Err.alreadyClaimed ∧
    (feedOrb cClaimed accUser 1).1 = [Step.loadForgeState, Step.initClaimRecord] ∧
    (applyFeedOrb cClaimed accUser 1).tokenAccounts 5 = some taUser :=
  ⟨rfl, rfl, rfl⟩

/-- Claim C5 as amended: the claim-record uniqueness check (the Anchor
account `init`) executes *before* the token burn — any trace containing a
burn step has the uniqueness check among its first two steps — and an
attempt failing with the already-claimed error has executed no burn and
leaves the chain state, in particular the claimer's balance, unchanged. -/
theorem claim5_unique_check_before_burn (c : Chain) (acc : FeedOrbAccounts)
    (chainId : Nat) :
    ((feedOrb c acc chainId).2 = Except.error Err.alreadyClaimed →
       (feedOrb c acc chainId).1 = [Step.loadForgeState, Step.initClaimRecord] ∧
       (∀ amt, Step.burn amt ∉ (feedOrb c acc chainId).1) ∧
       applyFeedOrb c acc chainId = c) ∧
    (∀ amt, Step.burn amt ∈ (feedOrb c acc chainId).1 →
       ∃ post, (feedOrb c acc chainId).1 =
         Step.loadForgeState :: Step.initClaimRecord :: post) := by
  constructor
  · intro h
    obtain ⟨_, _, htr⟩ := feedOrb_alreadyClaimed_elim c acc chainId h
    exact ⟨htr, feedOrb_error_no_burn c acc chainId Err.alreadyClaimed h,
           applyFeedOrb_error c acc chainId Err.alreadyClaimed h⟩
  · intro amt hmem
    cases hres : (feedOrb c acc chainId).2 with
    | error e => exact absurd hmem (feedOrb_error_no_burn c acc chainId e hres amt)
    | ok p =>
      obtain ⟨c', evs⟩ := p
      have h' : feedOrb c acc chainId =
          ((feedOrb c acc chainId).1, Except.ok (c', evs)) := by
        rw [← hres]
      obtain ⟨fs, ta, _, _, _, _, _, _, _, _, htr, _, _⟩ :=
        feedOrb_ok_elim c acc chainId (feedOrb c acc chainId).1 c' evs h'
      rw [htr]
      exact ⟨[Step.checkTokenConstraints, Step.checkPaused, Step.checkOrbMetadata,
              Step.burn fs.rari_threshold, Step.writeClaimRecord, Step.emitOrbFedEvent]
             ++ (if chainId = 1 then [] else [Step.wormholePrep chainId])
             ++ [Step.bumpTotalClaimed], rfl⟩

theorem claim5_unique_check_before_burn_witness :
    applyFeedOrb cClaimed accUser 1 = cClaimed ∧
    (∃ post, (feedOrb cLive accUser 1).1 =
       Step.loadForgeState :: Step.initClaimRecord :: post) := by
  refine ⟨((claim5_unique_check_before_burn cClaimed accUser 1).1 rfl).2.2, ?_⟩
  exact (claim5_unique_check_before_burn cLive accUser 1).2 10 (by decide)

/-- Claim C6: the code contradicts it.  `feed_orb` succeeds for a caller
who holds no token account of the orb mint at all — only the metadata
binding `metadata.mint == orb_mint` is checked (lib.rs lines 27-31, under
a comment claiming to "Validate Orb ownership"); no account proving orb
possession is among the `FeedOrb` accounts. -/
theorem claim6_no_orb_holding_check :
    (feedOrb cLive accUser 1).2 =
      Except.ok (successState cLive accUser fsLive taUser 1,
                 successEvents accUser fsLive 1) ∧
    ¬ HoldsOrb cLive accUser.user accUser.orb_mint := by
  constructor
  · rfl
  · rintro ⟨k, ta, hk, hmint, hown, hamt⟩
    by_cases h5 : k = 5
    · subst h5
      simp only [cLive, if_pos rfl] at hk
      have hta : taUser = ta := Option.some.inj hk
      rw [← hta] at hmint
      exact absurd hmint (by decide)
    · simp only [cLive, if_neg h5] at hk
      exact Option.noConfusion hk

/-- A chain on which the forge singleton has never been created. -/
def cEmpty : Chain :=
  { forgeState := none
    claimRecords := fun _ => none
    tokenAccounts := fun _ => none
    mintSupply := fun _ => 0
    now := 0 }

/-- Example parameters for `initialize`. -/
def paramsEx : InitParams :=
  { wormhole_bridge := 2, rari_mint := 3, rari_threshold := 10 }

/-- Claim C7: `initialize` creates the singleton forge state with
`total_claimed = 0` and `paused = false`, the supplied bridge target,
gating-token mint and threshold, and the calling signer as authority,
touching nothing else; when the singleton already exists it fails with
the already-initialized error and the state is unchanged. -/
theorem claim7_init_creates_singleton (c : Chain) (authority : Pubkey)
    (params : InitParams) :
    (c.forgeState = none →
      ∃ c', initForge c authority params = Except.ok c' ∧
        c'.forgeState = some { authority := authority,
                               wormhole_bridge := params.wormhole_bridge,
                               rari_mint := params.rari_mint,
                               rari_threshold := params.rari_threshold,
                               total_claimed := 0, paused := false } ∧
        c'.claimRecords = c.claimRecords ∧ c'.tokenAccounts = c.tokenAccounts ∧
        c'.mintSupply = c.mintSupply ∧ c'.now = c.now) ∧
    (∀ fs, c.forgeState = some fs →
      initForge c authority params = Except.error Err.alreadyInitialized ∧
      applyInitForge c authority params = c) := by
  constructor
  · intro h
    refine ⟨{ c with
      forgeState := some { authority := authority,
                           wormhole_bridge := params.wormhole_bridge,
                           rari_mint := params.rari_mint,
                           rari_threshold := params.rari_threshold,
                           total_claimed := 0, paused := false } },
      ?_, rfl, rfl, rfl, rfl, rfl⟩
    simp [initForge, h]
  · intro fs h
    have he : initForge c authority params = Except.error Err.alreadyInitialized := by
      simp [initForge, h]
    refine ⟨he, ?_⟩
    unfold applyInitForge
    rw [he]

theorem claim7_init_creates_singleton_witness :
    (∃ c', initForge cEmpty 1 paramsEx = Except.ok c' ∧
      c'.forgeState = some { authority := 1,
                             wormhole_bridge := paramsEx.wormhole_bridge,
                             rari_mint := paramsEx.rari_mint,
                             rari_threshold := paramsEx.rari_threshold,
                             total_claimed := 0, paused := false } ∧
      c'.claimRecords = cEmpty.claimRecords ∧
      c'.tokenAccounts = cEmpty.tokenAccounts ∧
      c'.mintSupply = cEmpty.mintSupply ∧ c'.now = cEmpty.now) ∧
    (initForge cLive 1 paramsEx = Except.error Err.alreadyInitialized ∧
     applyInitForge cLive 1 paramsEx = cLive) := by
  have h1 := claim7_init_creates_singleton cEmpty 1 paramsEx
  have h2 := claim7_init_creates_singleton cLive 1 paramsEx
  exact ⟨h1.1 rfl, h2.2 fsLive rfl⟩

/-- Claim C8: a successful `feed_orb` performs the Wormhole
bridge-dispatch preparation (the `chain_id != 1` branch, lib.rs lines
59-63) if and only if the supplied target chain differs from `1`: the
preparation message is among the effects, and the preparation step in the
trace, exactly when `chainId ≠ 1`. -/
theorem claim8_bridge_dispatch_iff_nonnative (c : Chain) (acc : FeedOrbAccounts)
    (chainId : Nat) (tr : List Step) (c' : Chain) (evs : List Effect)
    (h : feedOrb c acc chainId = (tr, Except.ok (c', evs))) :
    ((∃ pl, Effect.wormholePrepMsg pl ∈ evs) ↔ chainId ≠ 1) ∧
    (chainId ≠ 1 → Effect.wormholePrepMsg chainId ∈ evs) ∧
    (Step.wormholePrep chainId ∈ tr ↔ chainId ≠ 1) := by
  obtain ⟨fs, ta, _, _, _, _, _, _, _, _, htr, _, hevs⟩ :=
    feedOrb_ok_elim c acc chainId tr c' evs h
  subst htr
  subst hevs
  by_cases h1 : chainId = 1
  · subst h1
    refine ⟨?_, ?_, ?_⟩ <;> simp [successEvents, successTrace]
  · refine ⟨?_, ?_, ?_⟩ <;> simp [successEvents, successTrace, h1]

theorem claim8_bridge_dispatch_iff_nonnative_witness :
    Effect.wormholePrepMsg 5 ∈ evsOf (feedOrb cLive accUser 5) ∧
    ¬ (∃ pl, Effect.wormholePrepMsg pl ∈ evsOf (feedOrb cLive accUser 1)) := by
  constructor
  · exact (claim8_bridge_dispatch_iff_nonnative cLive accUser 5
      (feedOrb cLive accUser 5).1 (applyFeedOrb cLive accUser 5)
      (evsOf (feedOrb cLive accUser 5)) rfl).2.1 (by decide)
  · intro hex
    exact ((claim8_bridge_dispatch_iff_nonnative cLive accUser 1
      (feedOrb cLive accUser 1).1 (applyFeedOrb cLive accUser 1)
      (evsOf (feedOrb cLive accUser 1)) rfl).1.mp hex) rfl

/-- Claim C9, counterexample: with the program paused and a metadata
account bound to the wrong mint, `feed_orb` fails with `ProgramPaused`
(the pause check on line 24 runs first), not with
`InvalidOrbMetadata`. -/
theorem claim9_metadata_gate_cex :
    accBadMeta.orb_metadata_mint ≠ accBadMeta.orb_mint ∧
    (feedOrb cPaused accBadMeta 1).2 = Except.error Err.programPaused ∧
    Err.programPaused ≠ Err.invalidOrbMetadata :=
  ⟨by decide, rfl, by decide⟩

/-- Claim C9 as amended: when account validation passes (no existing
claim record, the user token account exists and satisfies its
constraints) and the program is not paused, a metadata account whose
recorded mint differs from the orb mint makes `feed_orb` fail with
`InvalidOrbMetadata`; no burn step executes and the chain state is
unchanged. -/
theorem claim9_metadata_gate (c : Chain) (acc : FeedOrbAccounts) (chainId : Nat)
    (fs : ForgeState) (ta : TokenAccount)
    (hfs : c.forgeState = some fs) (hr : c.claimRecords acc.orb_mint = none)
    (hta : c.tokenAccounts acc.user_rari_account = some ta)
    (ho : ta.owner = acc.user) (hm : ta.mint = acc.rari_mint)
    (hp : fs.paused = false) (hmeta : acc.orb_metadata_mint ≠ acc.orb_mint) :
    (feedOrb c acc chainId).2 = Except.error Err.invalidOrbMetadata ∧
    (∀ amt, Step.burn amt ∉ (feedOrb c acc chainId).1) ∧
    applyFeedOrb c acc chainId = c := by
  have he := feedOrb_bad_metadata c acc chainId fs ta hfs hr hta ho hm hp hmeta
  have h2 : (feedOrb c acc chainId).2 = Except.error Err.invalidOrbMetadata := by
    rw [he]
  exact ⟨h2, feedOrb_error_no_burn c acc chainId _ h2,
         applyFeedOrb_error c acc chainId _ h2⟩

theorem claim9_metadata_gate_witness :
    (feedOrb cLive accBadMeta 1).2 = Except.error Err.invalidOrbMetadata ∧
    applyFeedOrb cLive accBadMeta 1 = cLive := by
  have h := claim9_metadata_gate cLive accBadMeta 1 fsLive taUser
    rfl rfl rfl rfl rfl rfl (by decide)
  exact ⟨h.1, h.2.2⟩

/-- The chain after an authority `toggle_pause`: only the `paused` field
of the forge state changes. -/
def pauseToggled (c : Chain) (fs : ForgeState) : Chain :=
  { c with forgeState := some { fs with paused := !fs.paused } }

/-- Claim C10: an authority `toggle_pause` changes only the `paused`
field of the forge state (all other forge-state fields and all other
chain components are untouched), and a second authority `toggle_pause`
restores exactly the prior state. -/
theorem claim10_toggle_involution (c : Chain) (fs : ForgeState)
    (hfs : c.forgeState = some fs) :
    togglePause c fs.authority = Except.ok (pauseToggled c fs) ∧
    (pauseToggled c fs).forgeState = some { fs with paused := !fs.paused } ∧
    (pauseToggled c fs).claimRecords = c.claimRecords ∧
    (pauseToggled c fs).tokenAccounts = c.tokenAccounts ∧
    (pauseToggled c fs).mintSupply = c.mintSupply ∧
    (pauseToggled c fs).now = c.now ∧
    togglePause (pauseToggled c fs) fs.authority = Except.ok c := by
  refine ⟨?_, rfl, rfl, rfl, rfl, rfl, ?_⟩
  · simp [togglePause, hfs, pauseToggled]
  · have step : togglePause (pauseToggled c fs) fs.authority =
        Except.ok { c with forgeState := some { fs with paused := !!fs.paused } } := by
      simp [togglePause, pauseToggled]
    rw [step, Bool.not_not]
    exact congrArg (fun x => Except.ok { c with forgeState := x }) hfs.symm

theorem claim10_toggle_involution_witness :
    togglePause cLive fsLive.authority = Except.ok (pauseToggled cLive fsLive) ∧
    togglePause (pauseToggled cLive fsLive) fsLive.authority = Except.ok cLive := by
  have h := claim10_toggle_involution cLive fsLive rfl
  exact ⟨h.1, h.2.2.2.2.2.2⟩

end OrbForge
